import Mathlib

set_option maxRecDepth 8000

/-!
Verification development for the beehive data API: a shallow embedding of
the Flux query compiler (`buildFluxQuery` and its subquery builders), the
query parser (`parseQuery`), the request body-size boundary, the stream
message matcher (`matchMessage`), and the request-queue admission gate,
together with theorems settling the specification claims about them.

Strings are manipulated through their character lists (`String.data`) so
that every definition is executable and kernel-reducible; Go byte-wise
string operations coincide with these character-wise ones on the ASCII
strings the code deals in.
-/

instance {ε α : Type} [DecidableEq ε] [DecidableEq α] : DecidableEq (Except ε α) :=
  fun x y =>
    match x, y with
    | .ok a, .ok b =>
      if h : a = b then isTrue (by rw [h]) else isFalse (fun hc => by cases hc; exact h rfl)
    | .error a, .error b =>
      if h : a = b then isTrue (by rw [h]) else isFalse (fun hc => by cases hc; exact h rfl)
    | .ok _, .error _ => isFalse (fun hc => by cases hc)
    | .error _, .ok _ => isFalse (fun hc => by cases hc)

/-! ## Character classes and string helpers -/

/-- Embedding of the character class of `validQueryStringRE`, the Go regexp
`^[A-Za-z0-9+-_.*:| ]*$`.  Inside a regexp character class the unescaped
`-` in `+-_` forms a *range*, namely the ASCII codes 43 (`+`) through 95
(`_`); that range already contains the digits, the uppercase letters, and
`, - . / : ; < = > ? @ [ \ ] ^`.  The remaining members are the explicit
`A-Z`, `a-z`, `0-9` ranges and the literal `.`, `*`, `:`, `|` and space. -/
def validQueryStringChar (c : Char) : Bool :=
  (65 ≤ c.toNat && c.toNat ≤ 90) ||    -- A-Z
  (97 ≤ c.toNat && c.toNat ≤ 122) ||   -- a-z
  (48 ≤ c.toNat && c.toNat ≤ 57) ||    -- 0-9
  (43 ≤ c.toNat && c.toNat ≤ 95) ||    -- the +-_ range: '+' (43) .. '_' (95)
  c.toNat = 46 ||                      -- .
  c.toNat = 42 ||                      -- *
  c.toNat = 58 ||                      -- :
  c.toNat = 124 ||                     -- |
  c.toNat = 32                         -- space

/-- Embedding of `isValidFilterString`: `validQueryStringRE.MatchString(s)`,
the anchored class iterated with `*`, holds exactly when every character of
`s` lies in the class. -/
def isValidFilterString (s : String) : Bool :=
  s.data.all validQueryStringChar

/-- The character allowlist as the specification *describes* it
(`[A-Za-z0-9+\-_.*:| ]`): letters, digits, and the literal characters
`+ - _ . * : |` and space, the hyphen being escaped.  Kept separate from
`validQueryStringChar` (the class the code actually compiles) so the two
can be compared. -/
def specAllowedChar (c : Char) : Bool :=
  (65 ≤ c.toNat && c.toNat ≤ 90) ||
  (97 ≤ c.toNat && c.toNat ≤ 122) ||
  (48 ≤ c.toNat && c.toNat ≤ 57) ||
  c.toNat = 43 ||                      -- +
  c.toNat = 45 ||                      -- -
  c.toNat = 95 ||                      -- _
  c.toNat = 46 ||                      -- .
  c.toNat = 42 ||                      -- *
  c.toNat = 58 ||                      -- :
  c.toNat = 124 ||                     -- |
  c.toNat = 32                         -- space

/-- Byte-wise lexicographic comparison of character lists, the order
`sort.Strings` uses (byte order and character order agree on ASCII). -/
def lexLe : List Char → List Char → Bool
  | [], _ => true
  | _ :: _, [] => false
  | a :: as, b :: bs =>
    if a < b then true
    else if b < a then false
    else lexLe as bs

/-- The sorting relation on strings induced by `lexLe`. -/
def strLeRel (a b : String) : Prop :=
  lexLe a.data b.data = true

instance : DecidableRel strLeRel := fun a b => by
  unfold strLeRel; infer_instance

/-- Embedding of `sort.Strings`: sort a list of strings lexicographically.
(`sort.Strings` is not stable, but on a linear order the sorted list is
determined by the multiset of elements, so any sort embeds it.) -/
def sortStrings (l : List String) : List String :=
  List.insertionSort strLeRel l

/-- Embedding of `strings.HasPrefix(s, "_")`. -/
def startsWithUnderscore (s : String) : Bool :=
  match s.data with
  | [] => false
  | c :: _ => c = '_'

/-- Embedding of `strings.ReplaceAll(s, "/", "\\/")` on character lists:
every `/` gets a `\` prepended. -/
def escSlashData : List Char → List Char
  | [] => []
  | c :: rest => if c = '/' then '\\' :: '/' :: escSlashData rest else c :: escSlashData rest

/-- `strings.ReplaceAll(s, "/", "\\/")` as a string function. -/
def escapeSlashes (s : String) : String :=
  String.mk (escSlashData s.data)

/-- Embedding of `strings.Contains(s, needle)` for a one-character needle. -/
def containsChar (s : String) (c : Char) : Bool :=
  s.data.any (fun a => a == c)

/-! ## The Query model and the Flux query compiler -/

/-- The `Query` request descriptor.  The Go struct (its JSON field names are
`start`, `end`, `head`, `tail`, `func`, `bucket`, `filter`) carries a map
for `filter`; Go map iteration order is unspecified, so the filter is
embedded as an association list and iterated in list order — one admissible
iteration order.  `head` and `tail` are Go `int`s, `bucket` and `func` are
optional pointers. -/
structure Query where
  bucket : Option String
  start : String
  «end» : String
  head : Option Int
  tail : Option Int
  func : Option String
  filter : List (String × String)
deriving DecidableEq

/-- Embedding of `fieldRenameMap`, the one-entry Go map translating the
logical `name` field to the backend measurement field. -/
def fieldRenameMap (field : String) : Option String :=
  if field = "name" then some "_measurement" else none

/-- The predicate clause `buildFilterSubquery` emits for one filter entry:
rename the field if needed, then pick the clause form from the pattern
shape (`|` → anchored alternation regex, `*` → anchored wildcard regex,
otherwise exact equality), escaping `/` in the regex forms. -/
def clauseOf (field pattern : String) : String :=
  let f := match fieldRenameMap field with
    | some s => s
    | none => field
  if containsChar pattern '|' then
    "r." ++ f ++ " =~ /^(" ++ escapeSlashes pattern ++ ")$/"
  else if containsChar pattern '*' then
    "r." ++ f ++ " =~ /^" ++ escapeSlashes pattern ++ "$/"
  else
    "r." ++ f ++ " == \"" ++ pattern ++ "\""

/-- The loop body of `buildFilterSubquery`: collect one clause per filter
entry in iteration order, failing on the first entry whose field or pattern
does not pass `isValidFilterString`. -/
def filterParts : List (String × String) → Except String (List String)
  | [] => .ok []
  | (field, pattern) :: rest =>
    if !isValidFilterString field then
      .error ("invalid filter field name \"" ++ field ++ "\"")
    else if !isValidFilterString pattern then
      .error ("invalid filter field pattern \"" ++ pattern ++ "\"")
    else
      match filterParts rest with
      | .error e => .error e
      | .ok parts => .ok (clauseOf field pattern :: parts)

/-- Embedding of `buildFilterSubquery`: build the clauses, and when any
exist, sort them and join them with `" and "` inside one filter stage. -/
def buildFilterSubquery (query : Query) : Except String String :=
  match filterParts query.filter with
  | .error e => .error e
  | .ok parts =>
    if parts.length > 0 then
      .ok ("filter(fn: (r) => " ++ String.intercalate " and " (sortStrings parts) ++ ")")
    else
      .ok ""

/-- Embedding of `buildRangeSubquery`: validate `start` and `end` against
the safe-string class, then emit `range(...)` from the nonempty bounds. -/
def buildRangeSubquery (query : Query) : Except String String :=
  if !isValidFilterString query.start then
    .error ("invalid start timestamp \"" ++ query.start ++ "\"")
  else if !isValidFilterString query.«end» then
    .error ("invalid end timestamp \"" ++ query.«end» ++ "\"")
  else
    let parts : List String :=
      (if query.start ≠ "" then ["start:" ++ query.start] else []) ++
      (if query.«end» ≠ "" then ["stop:" ++ query.«end»] else [])
    if parts.length > 0 then
      .ok ("range(" ++ String.intercalate "," parts ++ ")")
    else
      .ok ""

/-- The `switch` on `*query.Func`: the five supported aggregation stages. -/
def funcStage (fn : String) : Option String :=
  if fn = "mean" then some "mean()"
  else if fn = "min" then some "min()"
  else if fn = "max" then some "max()"
  else if fn = "sum" then some "sum()"
  else if fn = "count" then some "count()"
  else none

/-- Embedding of `buildFluxQuery`: resolve the bucket (per-query override
first), reject private buckets, then assemble the stages in order —
source, range, filter, head/tail truncation, aggregation — joined with
`" |> "`. -/
def buildFluxQuery (bucket : String) (query : Query) : Except String String :=
  let b := query.bucket.getD bucket
  if startsWithUnderscore b then
    .error ("not authorized to access bucket \"" ++ b ++ "\"")
  else
    match buildRangeSubquery query with
    | .error e => .error e
    | .ok rq =>
      match buildFilterSubquery query with
      | .error e => .error e
      | .ok fq =>
        if query.head.isSome && query.tail.isSome then
          .error "head and tail cannot both be specified"
        else
          let parts : List String :=
            ["from(bucket:\"" ++ b ++ "\")"] ++
            (if rq ≠ "" then [rq] else []) ++
            (if fq ≠ "" then [fq] else []) ++
            (match query.head with
              | some n => ["limit(n:" ++ toString n ++ ")"]
              | none => []) ++
            (match query.tail with
              | some n => ["tail(n:" ++ toString n ++ ")"]
              | none => [])
          match query.func with
          | none => .ok (String.intercalate " |> " parts)
          | some fn =>
            match funcStage fn with
            | some stage => .ok (String.intercalate " |> " (parts ++ [stage]))
            | none => .error "unsupported function"

/-- The non-aggregation stages of a compiled query, in the fixed order the
compiler assembles them: source, range, filter, head truncation, tail
truncation; `rq` and `fq` are the already-built range and filter stages
(empty string meaning absent). -/
def stagesFor (b : String) (query : Query) (rq fq : String) : List String :=
  ["from(bucket:\"" ++ b ++ "\")"] ++
  (if rq ≠ "" then [rq] else []) ++
  (if fq ≠ "" then [fq] else []) ++
  (match query.head with
    | some n => ["limit(n:" ++ toString n ++ ")"]
    | none => []) ++
  (match query.tail with
    | some n => ["tail(n:" ++ toString n ++ ")"]
    | none => [])

/-- The aggregation stage list: empty when no `func` is set, otherwise the
stage of the chosen aggregation function. -/
def aggStages (query : Query) : List String :=
  match query.func with
  | none => []
  | some fn => (funcStage fn).toList

/-! ## Query parsing (service.go) -/

/-- A JSON-like value, restricted to the shapes a Query payload can hold:
strings, integers, and string-to-string objects. -/
inductive JVal where
  | str : String → JVal
  | num : Int → JVal
  | omap : List (String × String) → JVal
deriving DecidableEq

/-- The zero `Query` the decoder starts from. -/
def emptyQuery : Query :=
  { bucket := none, start := "", «end» := "", head := none, tail := none,
    func := none, filter := [] }

/-- Modelled from the spec: the `Query` struct's JSON field set (the struct
definition itself is not among the provided sources).  Per the spec's
external-interface section the payload fields are `start`, `end`, `head`,
`tail`, `func`, `filter` and the `bucket` container override, and unknown
fields are rejected (`DisallowUnknownFields`).  Decoding one key/value pair
updates the corresponding Query field; any other key fails. -/
def decodeQueryField (q : Query) (kv : String × JVal) : Except String Query :=
  if kv.1 = "start" then
    match kv.2 with
    | .str s => .ok { q with start := s }
    | _ => .error "json: cannot unmarshal into field start"
  else if kv.1 = "end" then
    match kv.2 with
    | .str s => .ok { q with «end» := s }
    | _ => .error "json: cannot unmarshal into field end"
  else if kv.1 = "bucket" then
    match kv.2 with
    | .str s => .ok { q with bucket := some s }
    | _ => .error "json: cannot unmarshal into field bucket"
  else if kv.1 = "func" then
    match kv.2 with
    | .str s => .ok { q with func := some s }
    | _ => .error "json: cannot unmarshal into field func"
  else if kv.1 = "head" then
    match kv.2 with
    | .num n => .ok { q with head := some n }
    | _ => .error "json: cannot unmarshal into field head"
  else if kv.1 = "tail" then
    match kv.2 with
    | .num n => .ok { q with tail := some n }
    | _ => .error "json: cannot unmarshal into field tail"
  else if kv.1 = "filter" then
    match kv.2 with
    | .omap m => .ok { q with filter := m }
    | _ => .error "json: cannot unmarshal into field filter"
  else
    .error ("json: unknown field \"" ++ kv.1 ++ "\"")

/-- Whether a payload entry is one the decoder accepts: a known field name
carrying a value of the field's type. -/
def wellTypedField (kv : String × JVal) : Bool :=
  if kv.1 = "start" then (match kv.2 with | .str _ => true | _ => false)
  else if kv.1 = "end" then (match kv.2 with | .str _ => true | _ => false)
  else if kv.1 = "bucket" then (match kv.2 with | .str _ => true | _ => false)
  else if kv.1 = "func" then (match kv.2 with | .str _ => true | _ => false)
  else if kv.1 = "head" then (match kv.2 with | .num _ => true | _ => false)
  else if kv.1 = "tail" then (match kv.2 with | .num _ => true | _ => false)
  else if kv.1 = "filter" then (match kv.2 with | .omap _ => true | _ => false)
  else false

/-- Whether a key is one of the Query payload's field names. -/
def knownQueryField (k : String) : Bool :=
  k = "start" || k = "end" || k = "bucket" || k = "func" ||
  k = "head" || k = "tail" || k = "filter"

/-- Fold the decoder over the payload's entries in order. -/
def decodeQueryFields (q : Query) : List (String × JVal) → Except String Query
  | [] => .ok q
  | kv :: rest =>
    match decodeQueryField q kv with
    | .error e => .error e
    | .ok q2 => decodeQueryFields q2 rest

/-- Decode a whole payload, starting from the zero Query. -/
def decodeQuery (payload : List (String × JVal)) : Except String Query :=
  decodeQueryFields emptyQuery payload

/-- The leading-character class of `metaRE` (`^[a-zA-Z_][a-zA-Z0-9_]*$`). -/
def metaKeyHeadChar (c : Char) : Bool :=
  (97 ≤ c.toNat && c.toNat ≤ 122) ||   -- a-z
  (65 ≤ c.toNat && c.toNat ≤ 90) ||    -- A-Z
  c.toNat = 95                         -- _

/-- The remaining-character class of `metaRE`. -/
def metaKeyTailChar (c : Char) : Bool :=
  metaKeyHeadChar c || (48 ≤ c.toNat && c.toNat ≤ 57)

/-- Embedding of `metaRE.MatchString`: the anchored identifier pattern
`^[a-zA-Z_][a-zA-Z0-9_]*$`. -/
def metaKeyOk (s : String) : Bool :=
  match s.data with
  | [] => false
  | c :: rest => metaKeyHeadChar c && rest.all metaKeyTailChar

/-- Embedding of `parseQuery` (service.go lines 117-133): decode with
unknown fields disallowed, then require a nonempty `start` and filter keys
matching `metaRE`.  The Go loop ranges over the filter map in an
unspecified order; the embedding reports the first offending key in list
order, one admissible order. -/
def parseQuery (payload : List (String × JVal)) : Except String Query :=
  match decodeQuery payload with
  | .error e => .error e
  | .ok q =>
    if q.start = "" then .error "missing start field"
    else
      match q.filter.find? (fun kv => !metaKeyOk kv.1) with
      | some kv => .error ("invalid filter key: \"" ++ kv.1 ++ "\"")
      | none => .ok q

/-! ## Request body reading (service.go ServeHTTP) -/

/-- The possible outcomes of the body-reading step of `ServeHTTP`. -/
inductive ReadBodyError where
  | noQuery
  | tooLarge
deriving DecidableEq

/-- The byte cap the code actually passes to `http.MaxBytesReader` —
4096, although the accompanying error message says "must be <1KB". -/
def maxBytesCap : Nat := 4096

/-- Embedding of the body-reading step of `ServeHTTP` (service.go lines
48-66).  `io.ReadAll` on a `MaxBytesReader(w, r.Body, 4096)` yields the
body when it fits and a `MaxBytesError` when it exceeds the cap; the
handler first rejects an empty body ("no query provided"), then a
too-large one, and otherwise hands the bytes to `parseQuery`.  The body is
a character list standing for the raw bytes (one byte per character for
the ASCII bodies at issue). -/
def readQueryBody (body : List Char) : Except ReadBodyError (List Char) :=
  if body.length = 0 then .error .noQuery
  else if body.length > maxBytesCap then .error .tooLarge
  else .ok body

/-! ## Stream message matching -/

/-- The stream `Message` (part_000): `value` is `interface{}` in Go,
embedded as an optional JSON-like value; `meta` is a string map. -/
structure Message where
  name : String
  timestamp : Int
  value : Option JVal
  meta : List (String × String)

/-- Go's `msg.Meta[key]`: map lookup returning the zero value `""` for an
absent key. -/
def metaGet (meta : List (String × String)) (k : String) : String :=
  (meta.lookup k).getD ""

/-- Whether `pat` occurs at the head of `l`. -/
def leadEq : List Char → List Char → Bool
  | [], _ => true
  | _ :: _, [] => false
  | a :: as, b :: bs => a == b && leadEq as bs

/-- Whether `pat` occurs anywhere inside `l` as a contiguous run. -/
def containsSub (pat : List Char) : List Char → Bool
  | [] => pat.isEmpty
  | c :: rest => leadEq pat (c :: rest) || containsSub pat rest

/-- Embedding of Go `regexp` matching for a *literal* pattern (one with no
metacharacters, such as `W123`): `MatchString` is unanchored, so it tests
whether the pattern occurs as a substring of the subject. -/
def matchLiteral (pat : String) (s : String) : Bool :=
  containsSub pat.data s.data

/-- Embedding of `matchMessage` (part_000 lines 73-80): every configured
key's compiled regex (here an arbitrary string predicate) must match the
message's meta value, with `""` standing in for an absent key. -/
def matchMessage (matchers : List (String × (String → Bool))) (msg : Message) : Bool :=
  matchers.all (fun km => km.2 (metaGet msg.meta km.1))

/-! ## Request queue admission -/

/-- One `Enter` on the request queue, seen at its linearization point: the
buffered channel send succeeds exactly when a slot is free (`occ < cap`),
and otherwise the `time.After` arm of the `select` fires and `Enter`
returns false.  The real wait-up-to-timeout is collapsed into this
instant; an `Enter` that succeeds after another task's `Leave` is an
`enter` event ordered after that `leave` event. -/
def enterStep (cap occ : Nat) : Nat × Bool :=
  if occ < cap then (occ + 1, true) else (occ, false)

/-- One `Leave`: receive from the channel, freeing a slot. -/
def leaveStep (occ : Nat) : Nat :=
  occ - 1

/-- An admission-relevant event of some request task. -/
inductive QueueEvent where
  | enter
  | leave

/-- Run an interleaved sequence of queue events, tracking how many slots
the channel holds. -/
def runQueue (cap : Nat) : Nat → List QueueEvent → Nat
  | occ, [] => occ
  | occ, .enter :: evs => runQueue cap (enterStep cap occ).1 evs
  | occ, .leave :: evs => runQueue cap (leaveStep occ) evs

/-- What the admission prefix of `ServeHTTP` decides about a request. -/
structure ServeOutcome where
  status : Nat
  backendQueried : Bool
deriving DecidableEq

/-- Embedding of the admission prefix of `ServeHTTP` (service.go request
queue snapshot, lines 209-214): a request whose `Enter` fails is answered
with 503 Service Unavailable and the rest of the handler — including the
backend query — never runs; otherwise the rest of the handler (abstracted
as `rest`) decides the outcome. -/
def serveWithAdmission (entered : Bool) (rest : Unit → ServeOutcome) : ServeOutcome :=
  if entered then rest () else { status := 503, backendQueried := false }

/-! ## Regex-literal slash escaping -/

/-- Scan a regex literal's body the way the Flux lexer reads it between the
opening and closing `/`: a backslash escapes the character after it, and an
unescaped `/` terminates the literal early. -/
def noEarlyTerminator : List Char → Bool
  | [] => true
  | c :: rest =>
    if c = '\\' then
      match rest with
      | [] => true
      | _ :: rest2 => noEarlyTerminator rest2
    else if c = '/' then false
    else noEarlyTerminator rest

/-- The pattern `\/*`: every character is accepted by the validator (the
backslash, code 92, sits inside the `+-_` range), and it contains `*`, so
it compiles to a wildcard regex clause. -/
def backslashSlashStar : String :=
  String.mk ['\\', '/', '*']

/-! ## Helper lemmas about the compiler -/

theorem lexLe_cons_iff (a b : Char) (as bs : List Char) :
    lexLe (a :: as) (b :: bs) = true ↔ (a < b ∨ (a = b ∧ lexLe as bs = true)) := by
  by_cases h1 : a < b
  · simp [lexLe, h1]
  · by_cases h2 : b < a
    · have hne : a ≠ b := fun h => (by rw [h] at h2; exact lt_irrefl b h2)
      simp [lexLe, h1, h2, hne]
    · have heq : a = b := le_antisymm (le_of_not_lt h2) (le_of_not_lt h1)
      simp [lexLe, h1, h2, heq]

theorem lexLe_total (as bs : List Char) : lexLe as bs = true ∨ lexLe bs as = true := by
  induction as generalizing bs with
  | nil => exact Or.inl rfl
  | cons a as ih =>
    cases bs with
    | nil => exact Or.inr rfl
    | cons b bs =>
      rcases lt_trichotomy a b with h | h | h
      · exact Or.inl ((lexLe_cons_iff a b as bs).mpr (Or.inl h))
      · rcases ih bs with h2 | h2
        · exact Or.inl ((lexLe_cons_iff a b as bs).mpr (Or.inr ⟨h, h2⟩))
        · exact Or.inr ((lexLe_cons_iff b a bs as).mpr (Or.inr ⟨h.symm, h2⟩))
      · exact Or.inr ((lexLe_cons_iff b a bs as).mpr (Or.inl h))

theorem lexLe_trans (as bs cs : List Char) (h1 : lexLe as bs = true)
    (h2 : lexLe bs cs = true) : lexLe as cs = true := by
  induction as generalizing bs cs with
  | nil => rfl
  | cons a as ih =>
    cases bs with
    | nil => simp [lexLe] at h1
    | cons b bs =>
      cases cs with
      | nil => simp [lexLe] at h2
      | cons c cs =>
        rcases (lexLe_cons_iff a b as bs).mp h1 with hab | ⟨hab, hrec1⟩
        · rcases (lexLe_cons_iff b c bs cs).mp h2 with hbc | ⟨hbc, _⟩
          · exact (lexLe_cons_iff a c as cs).mpr (Or.inl (lt_trans hab hbc))
          · exact (lexLe_cons_iff a c as cs).mpr (Or.inl (hbc ▸ hab))
        · rcases (lexLe_cons_iff b c bs cs).mp h2 with hbc | ⟨hbc, hrec2⟩
          · exact (lexLe_cons_iff a c as cs).mpr (Or.inl (hab ▸ hbc))
          · exact (lexLe_cons_iff a c as cs).mpr
              (Or.inr ⟨hab.trans hbc, ih bs cs hrec1 hrec2⟩)

theorem lexLe_antisymm (as bs : List Char) (h1 : lexLe as bs = true)
    (h2 : lexLe bs as = true) : as = bs := by
  induction as generalizing bs with
  | nil =>
    cases bs with
    | nil => rfl
    | cons b bs => simp [lexLe] at h2
  | cons a as ih =>
    cases bs with
    | nil => simp [lexLe] at h1
    | cons b bs =>
      rcases (lexLe_cons_iff a b as bs).mp h1 with hab | ⟨hab, hrec1⟩
      · rcases (lexLe_cons_iff b a bs as).mp h2 with hba | ⟨hba, _⟩
        · exact absurd (lt_trans hab hba) (lt_irrefl a)
        · exact absurd (hba ▸ hab) (lt_irrefl a)
      · rcases (lexLe_cons_iff b a bs as).mp h2 with hba | ⟨_, hrec2⟩
        · exact absurd (hab ▸ hba) (lt_irrefl b)
        · rw [hab, ih bs hrec1 hrec2]

theorem strLeRel_total (a b : String) : strLeRel a b ∨ strLeRel b a :=
  lexLe_total a.data b.data

theorem strLeRel_trans (a b c : String) (h1 : strLeRel a b) (h2 : strLeRel b c) :
    strLeRel a c :=
  lexLe_trans a.data b.data c.data h1 h2

theorem strLeRel_antisymm (a b : String) (h1 : strLeRel a b) (h2 : strLeRel b a) :
    a = b := by
  cases a; cases b
  exact congrArg String.mk (lexLe_antisymm _ _ h1 h2)

theorem sortStrings_sorted (l : List String) : (sortStrings l).Sorted strLeRel := by
  haveI : IsTotal String strLeRel := ⟨strLeRel_total⟩
  haveI : IsTrans String strLeRel := ⟨strLeRel_trans⟩
  exact List.sorted_insertionSort strLeRel l

theorem sortStrings_perm (l : List String) : (sortStrings l).Perm l :=
  List.perm_insertionSort strLeRel l

/-- Two lists with the same elements sort to the same list: the sorted
output is determined by the multiset of clauses, so any iteration order of
the Go map compiles to the same filter stage. -/
theorem sortStrings_eq_of_perm (l1 l2 : List String) (h : l1.Perm l2) :
    sortStrings l1 = sortStrings l2 := by
  haveI : IsAntisymm String strLeRel := ⟨strLeRel_antisymm⟩
  exact List.eq_of_perm_of_sorted
    (((sortStrings_perm l1).trans h).trans (sortStrings_perm l2).symm)
    (sortStrings_sorted l1) (sortStrings_sorted l2)

theorem filterParts_ok_of_valid (l : List (String × String))
    (h : ∀ fp ∈ l, isValidFilterString fp.1 = true ∧ isValidFilterString fp.2 = true) :
    filterParts l = .ok (l.map (fun fp => clauseOf fp.1 fp.2)) := by
  induction l with
  | nil => rfl
  | cons fp rest ih =>
    obtain ⟨f, p⟩ := fp
    obtain ⟨hf, hp⟩ := h (f, p) (List.mem_cons_self _ _)
    have hrest := ih (fun fp hfp => h fp (List.mem_cons_of_mem _ hfp))
    simp [filterParts, hf, hp, hrest]

theorem filterParts_ok_inv (l : List (String × String)) (parts : List String)
    (h : filterParts l = .ok parts) :
    (∀ fp ∈ l, isValidFilterString fp.1 = true ∧ isValidFilterString fp.2 = true) ∧
      parts = l.map (fun fp => clauseOf fp.1 fp.2) := by
  induction l generalizing parts with
  | nil =>
    simp only [filterParts, Except.ok.injEq] at h
    simp [← h]
  | cons fp rest ih =>
    obtain ⟨f, p⟩ := fp
    simp only [filterParts] at h
    by_cases hf : isValidFilterString f
    · by_cases hp : isValidFilterString p
      · simp only [hf, hp, Bool.not_true, Bool.false_eq_true, if_false] at h
        cases hr : filterParts rest with
        | error e => rw [hr] at h; simp at h
        | ok parts2 =>
          rw [hr] at h
          simp only [Except.ok.injEq] at h
          obtain ⟨hall, hmap⟩ := ih parts2 hr
          refine ⟨?_, ?_⟩
          · intro fp hfp
            rcases List.mem_cons.mp hfp with hfp | hfp
            · rw [hfp]; exact ⟨hf, hp⟩
            · exact hall fp hfp
          · rw [← h, hmap]; rfl
      · simp [hf, hp] at h
    · simp [hf] at h

theorem filterParts_error_of_bad (l : List (String × String)) (fp : String × String)
    (hmem : fp ∈ l)
    (hbad : isValidFilterString fp.1 = false ∨ isValidFilterString fp.2 = false) :
    ∃ e, filterParts l = .error e := by
  cases hres : filterParts l with
  | error e => exact ⟨e, rfl⟩
  | ok parts =>
    obtain ⟨hall, -⟩ := filterParts_ok_inv l parts hres
    obtain ⟨h1, h2⟩ := hall fp hmem
    rcases hbad with hb | hb
    · rw [h1] at hb; cases hb
    · rw [h2] at hb; cases hb

theorem buildRangeSubquery_error_of_bad (q : Query)
    (h : isValidFilterString q.start = false ∨ isValidFilterString q.«end» = false) :
    ∃ e, buildRangeSubquery q = .error e := by
  unfold buildRangeSubquery
  by_cases hs : isValidFilterString q.start
  · rcases h with h | h
    · rw [hs] at h; cases h
    · simp [hs, h]
  · simp [hs]

theorem buildRangeSubquery_ok_of_valid (q : Query)
    (h1 : isValidFilterString q.start = true) (h2 : isValidFilterString q.«end» = true) :
    ∃ rq, buildRangeSubquery q = .ok rq := by
  unfold buildRangeSubquery
  simp only [h1, h2, Bool.not_true, Bool.false_eq_true, if_false]
  repeat' split
  all_goals exact ⟨_, rfl⟩

theorem buildRangeSubquery_congr (q1 q2 : Query) (hs : q1.start = q2.start)
    (he : q1.«end» = q2.«end») : buildRangeSubquery q1 = buildRangeSubquery q2 := by
  unfold buildRangeSubquery
  rw [hs, he]

theorem buildFluxQuery_error_of_range (bucket : String) (q : Query) (e : String)
    (h : buildRangeSubquery q = .error e) :
    ∃ e2, buildFluxQuery bucket q = .error e2 := by
  unfold buildFluxQuery
  by_cases hp : startsWithUnderscore (q.bucket.getD bucket) = true
  · simp [hp]
  · simp [hp, h]

theorem buildFluxQuery_error_of_filter (bucket : String) (q : Query) (e : String)
    (h : buildFilterSubquery q = .error e) :
    ∃ e2, buildFluxQuery bucket q = .error e2 := by
  unfold buildFluxQuery
  by_cases hp : startsWithUnderscore (q.bucket.getD bucket) = true
  · simp [hp]
  · cases hr : buildRangeSubquery q with
    | error e2 => simp [hp, hr]
    | ok rq => simp [hp, hr, h]

theorem buildFluxQuery_congr (bucket : String) (q1 q2 : Query)
    (hb : q1.bucket = q2.bucket) (hh : q1.head = q2.head) (ht : q1.tail = q2.tail)
    (hf : q1.func = q2.func)
    (hr : buildRangeSubquery q1 = buildRangeSubquery q2)
    (hfl : buildFilterSubquery q1 = buildFilterSubquery q2) :
    buildFluxQuery bucket q1 = buildFluxQuery bucket q2 := by
  unfold buildFluxQuery
  rw [hb, hh, ht, hf, hr, hfl]

theorem buildFilterSubquery_perm (q1 q2 : Query) (hperm : q1.filter.Perm q2.filter)
    (hok : ∃ fq, buildFilterSubquery q1 = .ok fq) :
    buildFilterSubquery q1 = buildFilterSubquery q2 := by
  obtain ⟨fq, hok⟩ := hok
  unfold buildFilterSubquery at hok ⊢
  cases h1 : filterParts q1.filter with
  | error e => rw [h1] at hok; simp at hok
  | ok parts1 =>
    obtain ⟨hall1, hmap1⟩ := filterParts_ok_inv _ _ h1
    have hall2 : ∀ fp ∈ q2.filter,
        isValidFilterString fp.1 = true ∧ isValidFilterString fp.2 = true :=
      fun fp hfp => hall1 fp (hperm.mem_iff.mpr hfp)
    have h2 := filterParts_ok_of_valid q2.filter hall2
    have hpermparts : parts1.Perm (q2.filter.map (fun fp => clauseOf fp.1 fp.2)) := by
      rw [hmap1]; exact hperm.map _
    simp only [h2, sortStrings_eq_of_perm _ _ hpermparts, hpermparts.length_eq]

theorem buildFluxQuery_ok_inv (bucket : String) (q : Query) (s : String)
    (h : buildFluxQuery bucket q = .ok s) :
    ∃ rq fq, buildRangeSubquery q = .ok rq ∧ buildFilterSubquery q = .ok fq ∧
      (q.head.isSome && q.tail.isSome) = false ∧
      s = String.intercalate " |> " (stagesFor (q.bucket.getD bucket) q rq fq ++ aggStages q) := by
  unfold buildFluxQuery at h
  by_cases hp : startsWithUnderscore (q.bucket.getD bucket) = true
  · simp [hp] at h
  · simp only [hp, Bool.false_eq_true, if_false] at h
    cases hr : buildRangeSubquery q with
    | error e => simp only [hr] at h; exact absurd h (by simp)
    | ok rq =>
      simp only [hr] at h
      cases hf : buildFilterSubquery q with
      | error e => simp only [hf] at h; exact absurd h (by simp)
      | ok fq =>
        simp only [hf] at h
        by_cases hht : (q.head.isSome && q.tail.isSome) = true
        · simp [hht] at h
        · simp only [hht, Bool.false_eq_true, if_false] at h
          refine ⟨rq, fq, rfl, rfl, by simpa using hht, ?_⟩
          cases hfn : q.func with
          | none =>
            simp only [hfn, Except.ok.injEq] at h
            rw [← h]
            simp [stagesFor, aggStages, hfn]
          | some fn =>
            simp only [hfn] at h
            cases hfs : funcStage fn with
            | none => simp only [hfs] at h; exact absurd h (by simp)
            | some stage =>
              simp only [hfs, Except.ok.injEq] at h
              rw [← h]
              simp [stagesFor, aggStages, hfn, hfs]

/-! ## Claim theorems -/

/-- C5: for every Query and default bucket name, if the resolved bucket
(the Query's per-request override when present, otherwise the default)
begins with `_`, `buildFluxQuery` fails with the not-authorized error,
regardless of all other fields. -/
theorem claimC5_private_bucket (bucket : String) (query : Query)
    (h : startsWithUnderscore (query.bucket.getD bucket) = true) :
    buildFluxQuery bucket query =
      .error ("not authorized to access bucket \"" ++ query.bucket.getD bucket ++ "\"") := by
  unfold buildFluxQuery
  simp [h]

/-- C5 witness: a query overriding the bucket to `_badbucket` is rejected
as not authorized even under the public default bucket. -/
theorem claimC5_witness :
    buildFluxQuery "mybucket"
        { bucket := some "_badbucket", start := "-4h", «end» := "", head := none,
          tail := some 3, func := none, filter := [] } =
      .error "not authorized to access bucket \"_badbucket\"" :=
  claimC5_private_bucket "mybucket"
    { bucket := some "_badbucket", start := "-4h", «end» := "", head := none,
      tail := some 3, func := none, filter := [] } (by decide)

/-- C3 counterexample: on the query with only `start=-4h` and default
bucket `mybucket`, the compiler emits the source stage with the keyword
`bucket`, not `container` — the compiled string differs from the one the
claim asserts. -/
theorem claimC3_counterexample :
    buildFluxQuery "mybucket"
        { bucket := none, start := "-4h", «end» := "", head := none, tail := none,
          func := none, filter := [] } =
      .ok "from(bucket:\"mybucket\") |> range(start:-4h)" ∧
    ("from(bucket:\"mybucket\") |> range(start:-4h)" : String) ≠
      "from(container:\"mybucket\") |> range(start:-4h)" := by
  exact ⟨by decide, by decide⟩

/-- C3 (amended): on the query with only `start=-4h` and default bucket
`mybucket`, compilation returns exactly
`from(bucket:"mybucket") |> range(start:-4h)`; and every successfully
compiled query is the `" |> "`-join of its stages in the fixed order
source, range, filter, truncation (limit/tail), aggregation. -/
theorem claimC3_stage_order :
    (buildFluxQuery "mybucket"
        { bucket := none, start := "-4h", «end» := "", head := none, tail := none,
          func := none, filter := [] } =
      .ok "from(bucket:\"mybucket\") |> range(start:-4h)") ∧
    (∀ bucket query s, buildFluxQuery bucket query = .ok s →
      ∃ rq fq, buildRangeSubquery query = .ok rq ∧ buildFilterSubquery query = .ok fq ∧
        s = String.intercalate " |> "
          (stagesFor (query.bucket.getD bucket) query rq fq ++ aggStages query)) := by
  refine ⟨by decide, ?_⟩
  intro bucket query s h
  obtain ⟨rq, fq, h1, h2, -, h4⟩ := buildFluxQuery_ok_inv bucket query s h
  exact ⟨rq, fq, h1, h2, h4⟩

/-- C3 witness: the stage-order shape applied to a concrete query that
exercises every stage kind. -/
theorem claimC3_witness :
    ∃ rq fq,
      buildRangeSubquery
          { bucket := some "b2", start := "-4h", «end» := "-2h", head := some 3,
            tail := none, func := some "mean", filter := [("vsn", "W001")] } = .ok rq ∧
      buildFilterSubquery
          { bucket := some "b2", start := "-4h", «end» := "-2h", head := some 3,
            tail := none, func := some "mean", filter := [("vsn", "W001")] } = .ok fq ∧
      "from(bucket:\"b2\") |> range(start:-4h,stop:-2h) |> filter(fn: (r) => r.vsn == \"W001\") |> limit(n:3) |> mean()" =
        String.intercalate " |> "
          (stagesFor ((some "b2").getD "mybucket")
              { bucket := some "b2", start := "-4h", «end» := "-2h", head := some 3,
                tail := none, func := some "mean", filter := [("vsn", "W001")] } rq fq ++
            aggStages
              { bucket := some "b2", start := "-4h", «end» := "-2h", head := some 3,
                tail := none, func := some "mean", filter := [("vsn", "W001")] }) :=
  claimC3_stage_order.2 "mybucket"
    { bucket := some "b2", start := "-4h", «end» := "-2h", head := some 3,
      tail := none, func := some "mean", filter := [("vsn", "W001")] }
    "from(bucket:\"b2\") |> range(start:-4h,stop:-2h) |> filter(fn: (r) => r.vsn == \"W001\") |> limit(n:3) |> mean()"
    (by decide)

/-- C4: for every valid filter entry, the compiled filter stage selects the
clause form by pattern shape — a key equal to `name` is first renamed to
the backend measurement field `_measurement`; a pattern containing `|`
compiles to the anchored alternation clause; otherwise a pattern containing
`*` compiles to the anchored wildcard clause; otherwise to the exact
equality clause (the regex forms carrying the slash-escaped pattern). -/
theorem claimC4_clause_forms (field pattern : String)
    (h1 : isValidFilterString field = true) (h2 : isValidFilterString pattern = true) :
    buildFilterSubquery
        { bucket := none, start := "", «end» := "", head := none, tail := none,
          func := none, filter := [(field, pattern)] } =
      .ok ("filter(fn: (r) => " ++
        (if containsChar pattern '|' then
          "r." ++ (if field = "name" then "_measurement" else field) ++
            " =~ /^(" ++ escapeSlashes pattern ++ ")$/"
        else if containsChar pattern '*' then
          "r." ++ (if field = "name" then "_measurement" else field) ++
            " =~ /^" ++ escapeSlashes pattern ++ "$/"
        else
          "r." ++ (if field = "name" then "_measurement" else field) ++
            " == \"" ++ pattern ++ "\"") ++ ")") := by
  have hfp : filterParts [(field, pattern)] = .ok [clauseOf field pattern] := by
    simp [filterParts, h1, h2]
  have hclause : clauseOf field pattern =
      (if containsChar pattern '|' then
        "r." ++ (if field = "name" then "_measurement" else field) ++
          " =~ /^(" ++ escapeSlashes pattern ++ ")$/"
      else if containsChar pattern '*' then
        "r." ++ (if field = "name" then "_measurement" else field) ++
          " =~ /^" ++ escapeSlashes pattern ++ "$/"
      else
        "r." ++ (if field = "name" then "_measurement" else field) ++
          " == \"" ++ pattern ++ "\"") := by
    by_cases hn : field = "name"
    · subst hn; rfl
    · simp only [clauseOf, fieldRenameMap, hn, if_false, Bool.false_eq_true]
  have hstage : buildFilterSubquery
      { bucket := none, start := "", «end» := "", head := none, tail := none,
        func := none, filter := [(field, pattern)] } =
      .ok ("filter(fn: (r) => " ++ clauseOf field pattern ++ ")") := by
    unfold buildFilterSubquery
    simp only [hfp]
    rfl
  rw [hstage, hclause]

/-- C4 witness: the `name`/wildcard entry of the repository's own test
suite, compiled through the filter stage. -/
theorem claimC4_witness :
    buildFilterSubquery
        { bucket := none, start := "", «end» := "", head := none, tail := none,
          func := none, filter := [("name", "env.temp.*")] } =
      .ok "filter(fn: (r) => r._measurement =~ /^env.temp.*$/)" := by
  have h := claimC4_clause_forms "name" "env.temp.*" (by decide) (by decide)
  simpa using h

theorem isValidFilterString_eq_false (s : String) (c : Char) (hc : c ∈ s.data)
    (hbad : validQueryStringChar c = false) : isValidFilterString s = false := by
  cases hv : isValidFilterString s
  · rfl
  · rw [List.all_eq_true.mp hv c hc] at hbad
    cases hbad

/-- C1 counterexample: `;` lies outside the allowlist the claim describes,
yet the query whose `start` is `-4h;` compiles successfully — the
unescaped hyphen of `[A-Za-z0-9+-_.*:| ]` makes the code accept every
ASCII character from `+` (43) to `_` (95), `;` `,` `/` `=` included. -/
theorem claimC1_counterexample :
    specAllowedChar ';' = false ∧
    validQueryStringChar ';' = true ∧
    buildFluxQuery "mybucket"
        { bucket := none, start := "-4h;", «end» := "", head := none, tail := none,
          func := none, filter := [] } =
      .ok "from(bucket:\"mybucket\") |> range(start:-4h;)" :=
  ⟨by decide, by decide, by decide⟩

/-- C1 (amended): for every Query in which `start`, `end`, or any filter
key or filter pattern contains a character outside the class the code's
regexp actually accepts (letters, digits, the ASCII range `+`..`_` — which
includes `;`, `/`, `,`, `=` — and `.`, `*`, `:`, `|`, space),
`buildFluxQuery` fails with an error and returns no compiled query
string. -/
theorem claimC1_invalid_char_fails (bucket : String) (query : Query)
    (h : (∃ c ∈ query.start.data, validQueryStringChar c = false) ∨
         (∃ c ∈ query.«end».data, validQueryStringChar c = false) ∨
         (∃ fp ∈ query.filter,
            (∃ c ∈ fp.1.data, validQueryStringChar c = false) ∨
            (∃ c ∈ fp.2.data, validQueryStringChar c = false))) :
    ∃ e, buildFluxQuery bucket query = .error e := by
  rcases h with ⟨c, hc, hbad⟩ | ⟨c, hc, hbad⟩ | ⟨fp, hfp, hbad⟩
  · obtain ⟨e, he⟩ := buildRangeSubquery_error_of_bad query
      (Or.inl (isValidFilterString_eq_false _ c hc hbad))
    exact buildFluxQuery_error_of_range bucket query e he
  · obtain ⟨e, he⟩ := buildRangeSubquery_error_of_bad query
      (Or.inr (isValidFilterString_eq_false _ c hc hbad))
    exact buildFluxQuery_error_of_range bucket query e he
  · have hbad2 : isValidFilterString fp.1 = false ∨ isValidFilterString fp.2 = false := by
      rcases hbad with ⟨c, hc, hb⟩ | ⟨c, hc, hb⟩
      · exact Or.inl (isValidFilterString_eq_false _ c hc hb)
      · exact Or.inr (isValidFilterString_eq_false _ c hc hb)
    obtain ⟨e, he⟩ := filterParts_error_of_bad query.filter fp hfp hbad2
    have hfe : buildFilterSubquery query = .error e := by
      unfold buildFilterSubquery
      simp [he]
    exact buildFluxQuery_error_of_filter bucket query e hfe

/-- C1 witness: a start bound containing `(` — a character the compiled
class really does reject — fails to compile. -/
theorem claimC1_witness :
    ∃ e, buildFluxQuery "mybucket"
        { bucket := none, start := "(4h", «end» := "", head := none, tail := none,
          func := none, filter := [] } = .error e :=
  claimC1_invalid_char_fails "mybucket"
    { bucket := none, start := "(4h", «end» := "", head := none, tail := none,
      func := none, filter := [] }
    (Or.inl ⟨'(', by decide, by decide⟩)

/-- C2: for every pair of Query values that differ only in the insertion
order of the same filter key/value pairs, a successful `buildFluxQuery`
returns the identical compiled string; and the filter stage's predicate
clauses appear sorted lexicographically and joined with `" and "`. -/
theorem claimC2_perm_deterministic :
    (∀ (bucket s : String) (q1 q2 : Query),
      q1.bucket = q2.bucket → q1.start = q2.start → q1.«end» = q2.«end» →
      q1.head = q2.head → q1.tail = q2.tail → q1.func = q2.func →
      q1.filter.Perm q2.filter →
      buildFluxQuery bucket q1 = .ok s → buildFluxQuery bucket q2 = .ok s) ∧
    (∀ (query : Query) (parts : List String), filterParts query.filter = .ok parts →
      parts ≠ [] →
      buildFilterSubquery query =
        .ok ("filter(fn: (r) => " ++ String.intercalate " and " (sortStrings parts) ++ ")") ∧
      (sortStrings parts).Sorted strLeRel) := by
  constructor
  · intro bucket s q1 q2 hb hs he hh ht hf hperm hok
    obtain ⟨rq, fq, h1, h2, h3, h4⟩ := buildFluxQuery_ok_inv bucket q1 s hok
    have hfl := buildFilterSubquery_perm q1 q2 hperm ⟨fq, h2⟩
    have hcongr := buildFluxQuery_congr bucket q1 q2 hb hh ht hf
      (buildRangeSubquery_congr q1 q2 hs he) hfl
    rw [← hcongr]
    exact hok
  · intro query parts hfp hne
    refine ⟨?_, sortStrings_sorted parts⟩
    unfold buildFilterSubquery
    simp only [hfp]
    simp [List.length_pos.mpr hne]

/-- C2 witness: the two insertion orders of the filter entries
`node=n1, vsn=W001` compile to the same string, whose clauses are sorted
and joined with `" and "`. -/
theorem claimC2_witness :
    buildFluxQuery "mybucket"
        { bucket := none, start := "-4h", «end» := "", head := none, tail := none,
          func := none, filter := [("node", "n1"), ("vsn", "W001")] } =
      .ok "from(bucket:\"mybucket\") |> range(start:-4h) |> filter(fn: (r) => r.node == \"n1\" and r.vsn == \"W001\")" ∧
    (buildFilterSubquery
        { bucket := none, start := "-4h", «end» := "", head := none, tail := none,
          func := none, filter := [("vsn", "W001"), ("node", "n1")] } =
      .ok ("filter(fn: (r) => " ++ String.intercalate " and "
        (sortStrings [clauseOf "vsn" "W001", clauseOf "node" "n1"]) ++ ")") ∧
      (sortStrings [clauseOf "vsn" "W001", clauseOf "node" "n1"]).Sorted strLeRel) :=
  ⟨claimC2_perm_deterministic.1 "mybucket"
      "from(bucket:\"mybucket\") |> range(start:-4h) |> filter(fn: (r) => r.node == \"n1\" and r.vsn == \"W001\")"
      { bucket := none, start := "-4h", «end» := "", head := none, tail := none,
        func := none, filter := [("vsn", "W001"), ("node", "n1")] }
      { bucket := none, start := "-4h", «end» := "", head := none, tail := none,
        func := none, filter := [("node", "n1"), ("vsn", "W001")] }
      rfl rfl rfl rfl rfl rfl (List.Perm.swap ("node", "n1") ("vsn", "W001") [])
      (by decide),
   claimC2_perm_deterministic.2
      { bucket := none, start := "-4h", «end» := "", head := none, tail := none,
        func := none, filter := [("vsn", "W001"), ("node", "n1")] }
      [clauseOf "vsn" "W001", clauseOf "node" "n1"] (by decide) (by decide)⟩

theorem decodeQueryField_ok_iff (q : Query) (kv : String × JVal) :
    (∃ q2, decodeQueryField q kv = .ok q2) ↔ wellTypedField kv = true := by
  obtain ⟨k, v⟩ := kv
  unfold decodeQueryField wellTypedField
  by_cases h1 : k = "start"
  · cases v <;> simp [h1]
  · by_cases h2 : k = "end"
    · cases v <;> simp [h1, h2]
    · by_cases h3 : k = "bucket"
      · cases v <;> simp [h1, h2, h3]
      · by_cases h4 : k = "func"
        · cases v <;> simp [h1, h2, h3, h4]
        · by_cases h5 : k = "head"
          · cases v <;> simp [h1, h2, h3, h4, h5]
          · by_cases h6 : k = "tail"
            · cases v <;> simp [h1, h2, h3, h4, h5, h6]
            · by_cases h7 : k = "filter"
              · cases v <;> simp [h1, h2, h3, h4, h5, h6, h7]
              · simp [h1, h2, h3, h4, h5, h6, h7]

theorem wellTypedField_of_known_false (kv : String × JVal)
    (h : knownQueryField kv.1 = false) : wellTypedField kv = false := by
  obtain ⟨k, v⟩ := kv
  unfold knownQueryField at h
  simp only [Bool.or_eq_false_iff, decide_eq_false_iff_not] at h
  obtain ⟨⟨⟨⟨⟨⟨h1, h2⟩, h3⟩, h4⟩, h5⟩, h6⟩, h7⟩ := h
  unfold wellTypedField
  simp [h1, h2, h3, h4, h5, h6, h7]

theorem decodeQueryFields_error_of_bad (payload : List (String × JVal)) (q : Query)
    (kv : String × JVal) (hmem : kv ∈ payload) (hbad : wellTypedField kv = false) :
    ∃ e, decodeQueryFields q payload = .error e := by
  induction payload generalizing q with
  | nil => cases hmem
  | cons kv2 rest ih =>
    cases hd : decodeQueryField q kv2 with
    | error e => exact ⟨e, by simp [decodeQueryFields, hd]⟩
    | ok q2 =>
      rcases List.mem_cons.mp hmem with heq | hmem2
      · subst heq
        rw [(decodeQueryField_ok_iff q kv).mp ⟨q2, hd⟩] at hbad
        cases hbad
      · obtain ⟨e, he⟩ := ih q2 hmem2
        exact ⟨e, by simp [decodeQueryFields, hd, he]⟩

/-- C6 counterexample: a payload setting `start`, `head` *and* `tail` is
well-formed JSON with no unknown field, a nonempty start, and no filter
keys, and `parseQuery` *succeeds* on it: the head/tail mutual exclusion is
not checked at parse time (it is enforced later by the compiler). -/
theorem claimC6_counterexample :
    parseQuery [("start", JVal.str "-4h"), ("head", JVal.num 1), ("tail", JVal.num 1)] =
      .ok { bucket := none, start := "-4h", «end» := "", head := some 1, tail := some 1,
            func := none, filter := [] } := by
  decide

/-- C6 (amended): `parseQuery` fails whenever the payload contains an
unknown field, and — given a payload the decoder accepts — it succeeds
exactly when `start` is nonempty and every filter key matches
`^[A-Za-z_][A-Za-z0-9_]*$`; a query with both `head` and `tail` set is not
rejected by `parseQuery` but is rejected by `buildFluxQuery`. -/
theorem claimC6_parse_validation :
    (∀ (payload : List (String × JVal)) (kv : String × JVal), kv ∈ payload →
      knownQueryField kv.1 = false → ∃ e, parseQuery payload = .error e) ∧
    (∀ (payload : List (String × JVal)) (q : Query), decodeQuery payload = .ok q →
      (parseQuery payload = .ok q ↔
        (q.start ≠ "" ∧ q.filter.all (fun kv => metaKeyOk kv.1) = true))) ∧
    (∀ (bucket : String) (q : Query), q.head.isSome = true → q.tail.isSome = true →
      ∃ e, buildFluxQuery bucket q = .error e) := by
  refine ⟨?_, ?_, ?_⟩
  · intro payload kv hmem hunk
    obtain ⟨e, he⟩ := decodeQueryFields_error_of_bad payload emptyQuery kv hmem
      (wellTypedField_of_known_false kv hunk)
    exact ⟨e, by simp [parseQuery, decodeQuery, he]⟩
  · intro payload q hdec
    unfold parseQuery
    simp only [hdec]
    constructor
    · intro hp
      by_cases hstart : q.start = ""
      · simp [hstart] at hp
      · cases hfind : q.filter.find? (fun kv => !metaKeyOk kv.1) with
        | some kv => simp [hstart, hfind] at hp
        | none =>
          refine ⟨hstart, List.all_eq_true.mpr ?_⟩
          intro kv hkv
          have := List.find?_eq_none.mp hfind kv hkv
          simpa using this
    · rintro ⟨hstart, hall⟩
      have hfind : q.filter.find? (fun kv => !metaKeyOk kv.1) = none := by
        refine List.find?_eq_none.mpr ?_
        intro kv hkv
        have := List.all_eq_true.mp hall kv hkv
        simp_all
      simp [hstart, hfind]
  · intro bucket q hhead htail
    unfold buildFluxQuery
    by_cases hp : startsWithUnderscore (q.bucket.getD bucket) = true
    · exact ⟨"not authorized to access bucket \"" ++ q.bucket.getD bucket ++ "\"",
        by simp [hp]⟩
    · cases hr : buildRangeSubquery q with
      | error e => exact ⟨e, by simp [hp, hr]⟩
      | ok rq =>
        cases hf : buildFilterSubquery q with
        | error e => exact ⟨e, by simp [hp, hr, hf]⟩
        | ok fq =>
          exact ⟨"head and tail cannot both be specified",
            by simp [hp, hr, hf, hhead, htail]⟩

/-- C6 witness: an unknown field fails the parse; a valid payload with a
good filter key parses; a bad filter key fails; head plus tail is rejected
by the compiler. -/
theorem claimC6_witness :
    (∃ e, parseQuery [("start", JVal.str "-4h"), ("filters", JVal.omap [("node", "n1")])] =
      .error e) ∧
    (parseQuery [("start", JVal.str "-4h"), ("filter", JVal.omap [("meta_tag", "W123")])] =
        .ok { bucket := none, start := "-4h", «end» := "", head := none, tail := none,
              func := none, filter := [("meta_tag", "W123")] } ↔
      (("-4h" : String) ≠ "" ∧
        ([("meta_tag", "W123")] : List (String × String)).all
          (fun kv => metaKeyOk kv.1) = true)) ∧
    (∃ e, buildFluxQuery "mybucket"
        { bucket := none, start := "-4h", «end» := "", head := some 3, tail := some 3,
          func := none, filter := [] } = .error e) :=
  ⟨claimC6_parse_validation.1 [("start", JVal.str "-4h"), ("filters", JVal.omap [("node", "n1")])]
      ("filters", JVal.omap [("node", "n1")]) (by decide) (by decide),
   claimC6_parse_validation.2.1 [("start", JVal.str "-4h"), ("filter", JVal.omap [("meta_tag", "W123")])]
      { bucket := none, start := "-4h", «end» := "", head := none, tail := none,
        func := none, filter := [("meta_tag", "W123")] } (by decide),
   claimC6_parse_validation.2.2 "mybucket"
      { bucket := none, start := "-4h", «end» := "", head := some 3, tail := some 3,
        func := none, filter := [] } (by decide) (by decide)⟩

/-- C7 evaluation: the cap `ServeHTTP` actually passes to
`http.MaxBytesReader` is 4096 bytes, so a 2000-byte body — larger than the
1024-byte cap the claim (and the code's own "must be <1KB" error message)
describes — is accepted and handed to the parser rather than rejected;
bodies of exactly 1024 bytes are accepted and bodies over 4096 are
rejected with the dedicated too-large error. -/
theorem claimC7_size_cap_eval :
    readQueryBody (List.replicate 2000 'x') = .ok (List.replicate 2000 'x') ∧
    (List.replicate 2000 'x').length > 1024 ∧
    readQueryBody (List.replicate 1024 'x') = .ok (List.replicate 1024 'x') ∧
    readQueryBody (List.replicate 5000 'x') = .error .tooLarge ∧
    maxBytesCap = 4096 := by
  refine ⟨?_, ?_, ?_, ?_, rfl⟩ <;>
    · simp only [readQueryBody, maxBytesCap, List.length_replicate, gt_iff_lt]
      norm_num

theorem noEarlyTerminator_escSlash (l : List Char) (h : '\\' ∉ l) :
    noEarlyTerminator (escSlashData l) = true := by
  induction l with
  | nil => rfl
  | cons c rest ih =>
    have hc : c ≠ '\\' := fun he => h (he ▸ List.mem_cons_self c rest)
    have hrest : '\\' ∉ rest := fun hm => h (List.mem_cons_of_mem c hm)
    by_cases hs : c = '/'
    · subst hs
      simp only [escSlashData, if_pos rfl]
      simpa [noEarlyTerminator] using ih hrest
    · simp only [escSlashData, if_neg hs]
      rw [noEarlyTerminator.eq_def]
      simp [hc, hs, ih hrest]

/-- C10 counterexample: the pattern `\/*` passes the validator (the
backslash, ASCII 92, lies inside the accepted `+`..`_` range) and compiles
to a wildcard regex clause whose body is `\\/*`: the `/` did get a `\`
prepended, but that `\` is itself escaped by the pattern's own backslash,
so the regex literal *is* terminated early by a slash from the user
pattern. -/
theorem claimC10_counterexample :
    isValidFilterString backslashSlashStar = true ∧
    containsChar backslashSlashStar '*' = true ∧
    clauseOf "plugin" backslashSlashStar =
      "r.plugin =~ /^" ++ String.mk ['\\', '\\', '/', '*'] ++ "$/" ∧
    noEarlyTerminator (escapeSlashes backslashSlashStar).data = false := by
  refine ⟨?_, ?_, ?_, ?_⟩ <;> decide

/-- C10 (amended): each `/` of a filter pattern is emitted with `\`
prepended in the compiled regex clause — concretely,
`docker.io/waggle/plugin-iio.*` compiles to the clause of the repository's
own test — and for every pattern containing no backslash the compiled
regex literal contains no unescaped `/` and is never terminated early; a
pattern containing `\` before `/` can still produce an early
terminator. -/
theorem claimC10_slash_escaping :
    (buildFluxQuery "mybucket"
        { bucket := none, start := "-4h", «end» := "-2h", head := none, tail := none,
          func := none, filter := [("plugin", "docker.io/waggle/plugin-iio.*")] } =
      .ok "from(bucket:\"mybucket\") |> range(start:-4h,stop:-2h) |> filter(fn: (r) => r.plugin =~ /^docker.io\\/waggle\\/plugin-iio.*$/)") ∧
    (∀ p : String, '\\' ∉ p.data → noEarlyTerminator (escapeSlashes p).data = true) := by
  refine ⟨by decide, ?_⟩
  intro p h
  exact noEarlyTerminator_escSlash p.data h

/-- C10 witness: the slash-free invariant applied to the test suite's
plugin pattern. -/
theorem claimC10_witness :
    noEarlyTerminator (escapeSlashes "docker.io/waggle/plugin-iio.*").data = true :=
  claimC10_slash_escaping.2 "docker.io/waggle/plugin-iio.*" (by decide)

/-- C8 counterexample: the filter `{vsn: "W123"}` compiles to an
*unanchored* regex, so `MatchString` tests substring containment: a
message whose meta holds `vsn=W1234` — which does not contain the pair
`vsn=W123` — is nevertheless accepted. -/
theorem claimC8_counterexample :
    matchMessage [("vsn", matchLiteral "W123")]
        { name := "env.temp", timestamp := 0, value := none,
          meta := [("vsn", "W1234")] } = true ∧
    ([("vsn", "W1234")] : List (String × String)).lookup "vsn" = some "W1234" ∧
    ("W1234" : String) ≠ "W123" := by
  refine ⟨?_, ?_, ?_⟩ <;> decide

/-- C8 (amended): the stream Matcher accepts a message iff, for every
configured key, that key's regex matches the message's meta value (the
empty string standing in for an absent key); the filter `{vsn: "W123"}`
accepts exactly the messages whose `vsn` meta value *contains* `W123` as a
substring (the compiled regex is unanchored); and a message whose meta
lacks the `vsn` key is never accepted. -/
theorem claimC8_matcher_semantics :
    (∀ (matchers : List (String × (String → Bool))) (msg : Message),
      matchMessage matchers msg = true ↔
        ∀ km ∈ matchers, km.2 (metaGet msg.meta km.1) = true) ∧
    (∀ msg : Message,
      matchMessage [("vsn", matchLiteral "W123")] msg = true ↔
        containsSub "W123".data (metaGet msg.meta "vsn").data = true) ∧
    (∀ msg : Message, msg.meta.lookup "vsn" = none →
      matchMessage [("vsn", matchLiteral "W123")] msg = false) := by
  refine ⟨?_, ?_, ?_⟩
  · intro matchers msg
    simp [matchMessage, List.all_eq_true]
  · intro msg
    simp [matchMessage, matchLiteral]
  · intro msg h
    have hempty : metaGet msg.meta "vsn" = "" := by simp [metaGet, h]
    simp only [matchMessage, List.all_cons, List.all_nil, Bool.and_true, hempty]
    decide

/-- C8 witness: a message with no `vsn` meta key is rejected by the
`{vsn: "W123"}` matcher. -/
theorem claimC8_witness :
    matchMessage [("vsn", matchLiteral "W123")]
        { name := "env.temp", timestamp := 0, value := none,
          meta := [("node", "n1")] } = false :=
  claimC8_matcher_semantics.2.2
    { name := "env.temp", timestamp := 0, value := none, meta := [("node", "n1")] }
    (by decide)

theorem runQueue_le (cap : Nat) (evs : List QueueEvent) (occ : Nat) (h : occ ≤ cap) :
    runQueue cap occ evs ≤ cap := by
  induction evs generalizing occ with
  | nil => exact h
  | cons ev rest ih =>
    cases ev with
    | enter =>
      simp only [runQueue]
      apply ih
      unfold enterStep
      split
      · omega
      · exact h
    | leave =>
      simp only [runQueue]
      apply ih
      unfold leaveStep
      omega

/-- C9: under any interleaving of admission events starting from an empty
queue, the number of occupied slots never exceeds the capacity; `Enter`
returns true exactly by taking a free slot (filling one more) and returns
false leaving the count unchanged when the queue stays full through its
wait; and a request whose `Enter` fails is answered 503 and never reaches
the backend. -/
theorem claimC9_admission :
    (∀ (cap : Nat) (evs : List QueueEvent), runQueue cap 0 evs ≤ cap) ∧
    (∀ cap occ : Nat, (enterStep cap occ).2 = true →
      occ < cap ∧ (enterStep cap occ).1 = occ + 1) ∧
    (∀ cap occ : Nat, (enterStep cap occ).2 = false →
      ¬occ < cap ∧ (enterStep cap occ).1 = occ) ∧
    (∀ rest, serveWithAdmission false rest =
      { status := 503, backendQueried := false }) ∧
    (∀ rest, serveWithAdmission true rest = rest ()) := by
  refine ⟨?_, ?_, ?_, fun rest => rfl, fun rest => rfl⟩
  · intro cap evs
    exact runQueue_le cap evs 0 (Nat.zero_le cap)
  · intro cap occ h
    unfold enterStep at h ⊢
    by_cases hlt : occ < cap
    · simp [hlt]
    · simp [hlt] at h
  · intro cap occ h
    unfold enterStep at h ⊢
    by_cases hlt : occ < cap
    · simp [hlt] at h
    · simp [hlt]

/-- C9 witness: with capacity 1, the first `Enter` succeeds and fills the
slot; a second `Enter` while the slot is held fails and leaves the count
unchanged. -/
theorem claimC9_witness :
    ((0 : Nat) < 1 ∧ (enterStep 1 0).1 = 0 + 1) ∧
    (¬(1 : Nat) < 1 ∧ (enterStep 1 1).1 = 1) :=
  ⟨claimC9_admission.2.1 1 0 (by decide), claimC9_admission.2.2.1 1 1 (by decide)⟩
